import Mathlib

/-!
Verification of the AABB spatial-containment module
(`src/scripts/spatial_analysis_bbox.py`).

The element records handled by the Python code are generic
JSON-like nested dictionaries; they are modelled by the inductive
type `PyVal`.  Python floats are modelled as rationals (`ℚ`); the
numeric coercion `float(v)` is modelled as succeeding exactly on
numeric values (`pyFloat`).  Code that can raise a Python exception
past the modelled function's boundary is given the type
`Except Unit _`, with `.error ()` standing for an uncaught
exception; code whose `try/except` blocks absorb every exception is
given a plain `Option` result, mirroring `return None`.
-/

-- Rational arithmetic is irreducible by default; the concrete runs
-- below are evaluated definitionally, so restore reducibility.
unseal Rat.sub Rat.add Rat.mul Rat.inv

/-- A Python value as it appears in the element records: `None`, a
number, a string, a list, or a string-keyed dict (modelled as an
association list in insertion order). -/
inductive PyVal where
  | none
  | num (q : ℚ)
  | str (s : String)
  | list (xs : List PyVal)
  | dict (kvs : List (String × PyVal))

-- Structural equality test on `PyVal` (Python `==` on these values);
-- defined mutually with its list/dict variants because `PyVal` is a
-- nested inductive.
mutual
def pvBeq : PyVal → PyVal → Bool
  | .none, .none => true
  | .num a, .num b => a == b
  | .str a, .str b => a == b
  | .list xs, .list ys => pvBeqList xs ys
  | .dict xs, .dict ys => pvBeqKV xs ys
  | _, _ => false
def pvBeqList : List PyVal → List PyVal → Bool
  | [], [] => true
  | x :: xs, y :: ys => pvBeq x y && pvBeqList xs ys
  | _, _ => false
def pvBeqKV : List (String × PyVal) → List (String × PyVal) → Bool
  | [], [] => true
  | (k, v) :: xs, (k', v') :: ys => k == k' && pvBeq v v' && pvBeqKV xs ys
  | _, _ => false
end

-- The test `pvBeq` decides propositional equality.
mutual
theorem pvBeq_iff : ∀ a b, pvBeq a b = true ↔ a = b
  | .none, .none => by simp [pvBeq]
  | .num a, .num b => by simp [pvBeq]
  | .str a, .str b => by simp [pvBeq]
  | .list xs, .list ys => by
      simp only [pvBeq, pvBeqList_iff xs ys]
      constructor
      · rintro rfl; rfl
      · intro h; cases h; rfl
  | .dict xs, .dict ys => by
      simp only [pvBeq, pvBeqKV_iff xs ys]
      constructor
      · rintro rfl; rfl
      · intro h; cases h; rfl
  | .none, .num _ => by simp [pvBeq]
  | .none, .str _ => by simp [pvBeq]
  | .none, .list _ => by simp [pvBeq]
  | .none, .dict _ => by simp [pvBeq]
  | .num _, .none => by simp [pvBeq]
  | .num _, .str _ => by simp [pvBeq]
  | .num _, .list _ => by simp [pvBeq]
  | .num _, .dict _ => by simp [pvBeq]
  | .str _, .none => by simp [pvBeq]
  | .str _, .num _ => by simp [pvBeq]
  | .str _, .list _ => by simp [pvBeq]
  | .str _, .dict _ => by simp [pvBeq]
  | .list _, .none => by simp [pvBeq]
  | .list _, .num _ => by simp [pvBeq]
  | .list _, .str _ => by simp [pvBeq]
  | .list _, .dict _ => by simp [pvBeq]
  | .dict _, .none => by simp [pvBeq]
  | .dict _, .num _ => by simp [pvBeq]
  | .dict _, .str _ => by simp [pvBeq]
  | .dict _, .list _ => by simp [pvBeq]
theorem pvBeqList_iff : ∀ xs ys, pvBeqList xs ys = true ↔ xs = ys
  | [], [] => by simp [pvBeqList]
  | x :: xs, y :: ys => by
      simp [pvBeqList, pvBeq_iff x y, pvBeqList_iff xs ys]
  | [], _ :: _ => by simp [pvBeqList]
  | _ :: _, [] => by simp [pvBeqList]
theorem pvBeqKV_iff : ∀ xs ys, pvBeqKV xs ys = true ↔ xs = ys
  | [], [] => by simp [pvBeqKV]
  | (k, v) :: xs, (k', v') :: ys => by
      simp [pvBeqKV, pvBeq_iff v v', pvBeqKV_iff xs ys]
  | [], _ :: _ => by simp [pvBeqKV]
  | _ :: _, [] => by simp [pvBeqKV]
end

instance : DecidableEq PyVal := fun a b => decidable_of_iff _ (pvBeq_iff a b)

/-- A top-level element record: the Python code's `Dict[str, Any]`
arguments (insertion-ordered association list). -/
def Elem : Type := List (String × PyVal)

instance : DecidableEq Elem := by unfold Elem; infer_instance

/-- First binding of key `k` in an association list (`d[k]` lookup);
`Option.none` means the key is absent. -/
def lookupKey : List (String × PyVal) → String → Option PyVal
  | [], _ => Option.none
  | (k', v) :: rest, k => if k' = k then some v else lookupKey rest k

/-- Python `d.get(k)`: the stored value, or `None` when absent. -/
def pyDictGet (kvs : List (String × PyVal)) (k : String) : PyVal :=
  (lookupKey kvs k).getD .none

/-- Python `d.get(k, dflt)`: the stored value (even if it is `None`),
or `dflt` when the key is absent. -/
def pyDictGetD (kvs : List (String × PyVal)) (k : String) (dflt : PyVal) : PyVal :=
  (lookupKey kvs k).getD dflt

/-- Python truthiness of a value (`if v:`). -/
def truthy : PyVal → Bool
  | .none => false
  | .num q => q != 0
  | .str s => s != ""
  | .list xs => !xs.isEmpty
  | .dict kvs => !kvs.isEmpty

/-- Python `a or b`. -/
def pyOr (a b : PyVal) : PyVal := if truthy a then a else b

/-- The helper `_maybe_get(d, *path, default=None)`: walk nested
dicts, returning `None` as soon as a step is not a dict or lacks the
key. -/
def maybeGet : PyVal → List String → PyVal
  | cur, [] => cur
  | cur, k :: rest =>
      match cur with
      | .dict kvs =>
          match lookupKey kvs k with
          | some v => maybeGet v rest
          | Option.none => .none
      | _ => .none

/-- Python `float(v)` on the modelled values: succeeds exactly on
numbers.  (`None`, lists and dicts raise `TypeError`; the element
records carry their numbers as numbers, so string-to-float parsing is
not exercised and non-numeric strings raise `ValueError`, i.e. fail.) -/
def pyFloat : PyVal → Option ℚ
  | .num q => some q
  | _ => Option.none

/-- Python `str(v)`, used only for display labels.  Its exact
rendering of non-string values is irrelevant to every claim, so
non-string values get a schematic rendering. -/
def pyStr : PyVal → String
  | .str s => s
  | .num q => toString q
  | .none => "None"
  | .list _ => "<list>"
  | .dict _ => "<dict>"

/-- Python `v.get(k)` on an arbitrary value: raises `AttributeError`
(modelled as `.error ()`) when `v` is not a dict. -/
def pyGet (v : PyVal) (k : String) : Except Unit PyVal :=
  match v with
  | .dict kvs => .ok (pyDictGet kvs k)
  | _ => .error ()

/-- `float(v)` as an exception-raising step (`.error ()` = the raise). -/
def floatE (v : PyVal) : Except Unit ℚ :=
  match pyFloat v with
  | some q => .ok q
  | Option.none => .error ()

/-- The `BBox3D` value type: six coordinates plus a display name. -/
structure BBox3D where
  minx : ℚ
  miny : ℚ
  minz : ℚ
  maxx : ℚ
  maxy : ℚ
  maxz : ℚ
  name : String
deriving DecidableEq

/-- The `BBox3D.__init__` normalization: swap any inverted min/max
pair, axis by axis (coercion of the six arguments to `float` happens
at the call sites, which pass rationals here). -/
def mkBBox3D (minx miny minz maxx maxy maxz : ℚ) (name : String) : BBox3D :=
  let px := if minx > maxx then (maxx, minx) else (minx, maxx)
  let py := if miny > maxy then (maxy, miny) else (miny, maxy)
  let pz := if minz > maxz then (maxz, minz) else (minz, maxz)
  ⟨px.1, py.1, pz.1, px.2, py.2, pz.2, name⟩

/-- `BBox3D.volume`. -/
def BBox3D.volume (b : BBox3D) : ℚ :=
  max 0 (b.maxx - b.minx) * max 0 (b.maxy - b.miny) * max 0 (b.maxz - b.minz)

/-- Strategy 1, `_bbox_from_direct_dict`: read `min`/`Min` and
`max`/`Max` sub-records (empty dict as fallback), then the lowercase
`x`/`y`/`z` of each; any `AttributeError`/`TypeError` is caught and
yields `None`. -/
def _bbox_from_direct_dict (bbox_dict : PyVal) (name : String) : Option BBox3D :=
  match bbox_dict with
  | .dict kvs =>
      let minp := pyOr (pyDictGet kvs "min") (pyOr (pyDictGet kvs "Min") (.dict []))
      let maxp := pyOr (pyDictGet kvs "max") (pyOr (pyDictGet kvs "Max") (.dict []))
      (do
        let vmx ← pyGet minp "x"
        let vmy ← pyGet minp "y"
        let vmz ← pyGet minp "z"
        let vMx ← pyGet maxp "x"
        let vMy ← pyGet maxp "y"
        let vMz ← pyGet maxp "z"
        let a ← floatE vmx
        let b ← floatE vmy
        let c ← floatE vmz
        let d ← floatE vMx
        let e ← floatE vMy
        let f ← floatE vMz
        pure (mkBBox3D a b c d e f name) : Except Unit BBox3D).toOption
  | _ => Option.none

/-- The pattern `float(v.get(k, v.get(K)))` of the vertex/point loops:
`Option.none` when `v` is not a dict (the `.get` raises) or the value
is not numeric (the `float` raises); every such failure is caught by
the enclosing per-vertex `try`. -/
def vGetFloat (v : PyVal) (k K : String) : Option ℚ :=
  match v with
  | .dict kvs => pyFloat (pyDictGetD kvs k (pyDictGet kvs K))
  | _ => Option.none

/-- One iteration of the vertex loop in `_bbox_from_mesh_vertices`:
the three `append`s run in order `x`, `y`, `z` and the first failing
coordinate aborts the iteration, keeping the appends already made. -/
def meshStep (acc : List ℚ × List ℚ × List ℚ) (v : PyVal) : List ℚ × List ℚ × List ℚ :=
  match vGetFloat v "x" "X" with
  | Option.none => acc
  | some qx =>
      match vGetFloat v "y" "Y" with
      | Option.none => (acc.1 ++ [qx], acc.2.1, acc.2.2)
      | some qy =>
          match vGetFloat v "z" "Z" with
          | Option.none => (acc.1 ++ [qx], acc.2.1 ++ [qy], acc.2.2)
          | some qz => (acc.1 ++ [qx], acc.2.1 ++ [qy], acc.2.2 ++ [qz])

/-- Python `min` over a nonempty list (the empty case is unreachable
behind the emptiness guards; it gets a junk value). -/
def pyMin : List ℚ → ℚ
  | [] => 0
  | q :: qs => qs.foldl min q

/-- Python `max` over a nonempty list (same remark as `pyMin`). -/
def pyMax : List ℚ → ℚ
  | [] => 0
  | q :: qs => qs.foldl max q

/-- The vertex-list lookup of strategy 2:
`_maybe_get(elem,"geometry","mesh","vertices") or
_maybe_get(elem,"geometry","vertices")`. -/
def meshVertsOf (elem : Elem) : PyVal :=
  pyOr (maybeGet (.dict elem) ["geometry", "mesh", "vertices"])
       (maybeGet (.dict elem) ["geometry", "vertices"])

/-- Strategy 2, `_bbox_from_mesh_vertices`. -/
def _bbox_from_mesh_vertices (elem : Elem) (name : String) : Option BBox3D :=
  match meshVertsOf elem with
  | .list verts =>
      if verts.isEmpty then Option.none
      else
        let acc := verts.foldl meshStep ([], [], [])
        if acc.1.isEmpty || acc.2.1.isEmpty || acc.2.2.isEmpty then Option.none
        else some (mkBBox3D (pyMin acc.1) (pyMin acc.2.1) (pyMin acc.2.2)
                            (pyMax acc.1) (pyMax acc.2.1) (pyMax acc.2.2) name)
  | _ => Option.none

/-- One iteration of the 2D-point loop in `_bbox_from_boundary_height`
(appends in order `x`, `y`; failure keeps earlier appends). -/
def boundaryStep (acc : List ℚ × List ℚ) (p : PyVal) : List ℚ × List ℚ :=
  match vGetFloat p "x" "X" with
  | Option.none => acc
  | some qx =>
      match vGetFloat p "y" "Y" with
      | Option.none => (acc.1 ++ [qx], acc.2)
      | some qy => (acc.1 ++ [qx], acc.2 ++ [qy])

/-- The boundary lookup of strategy 3: `elem.get("room_boundary_2d")
or elem.get("boundary_2d") or _maybe_get(elem,"room","boundary_2d")`. -/
def boundaryOf (elem : Elem) : PyVal :=
  pyOr (pyDictGet elem "room_boundary_2d")
       (pyOr (pyDictGet elem "boundary_2d") (maybeGet (.dict elem) ["room", "boundary_2d"]))

/-- Strategy 3, `_bbox_from_boundary_height`.  The final
`float(base)` / `float(height)` coercions are outside every
`try/except` in the source, so a non-numeric, non-`None` base or
height raises out of the function: that path is `.error ()`. -/
def _bbox_from_boundary_height (elem : Elem) (name : String) : Except Unit (Option BBox3D) :=
  match boundaryOf elem with
  | .list pts =>
      if pts.length < 3 then .ok Option.none
      else
        let acc := pts.foldl boundaryStep ([], [])
        if acc.1.isEmpty || acc.2.isEmpty then .ok Option.none
        else
          let base := pyDictGetD elem "base_elevation" (maybeGet (.dict elem) ["room", "base_elevation"])
          let height := pyDictGetD elem "height" (maybeGet (.dict elem) ["room", "height"])
          if base = .none ∨ height = .none then .ok Option.none
          else
            match floatE base, floatE height with
            | .ok b, .ok h =>
                .ok (some (mkBBox3D (pyMin acc.1) (pyMin acc.2) b
                                    (pyMax acc.1) (pyMax acc.2) (b + h) name))
            | _, _ => .error ()
  | _ => .ok Option.none

/-- Strategy 4, `_bbox_from_location_size`: center `x`/`y` required,
center `z` and every size component defaulting to `0`; size components
taken through `abs`; all failures caught, yielding `None`. -/
def _bbox_from_location_size (elem : Elem) (name : String) : Option BBox3D :=
  match pyDictGet elem "location", pyDictGet elem "size" with
  | .dict lkvs, .dict skvs =>
      (do
        let cx ← floatE (pyDictGetD lkvs "x" (pyDictGet lkvs "X"))
        let cy ← floatE (pyDictGetD lkvs "y" (pyDictGet lkvs "Y"))
        let cz ← floatE (pyDictGetD lkvs "z" (pyDictGetD lkvs "Z" (.num 0)))
        let sxr ← floatE (pyDictGetD skvs "x" (pyDictGetD skvs "X" (.num 0)))
        let syr ← floatE (pyDictGetD skvs "y" (pyDictGetD skvs "Y" (.num 0)))
        let szr ← floatE (pyDictGetD skvs "z" (pyDictGetD skvs "Z" (.num 0)))
        let halfx := |sxr| * (1/2)
        let halfy := |syr| * (1/2)
        let halfz := |szr| * (1/2)
        pure (mkBBox3D (cx - halfx) (cy - halfy) (cz - halfz)
                       (cx + halfx) (cy + halfy) (cz + halfz) name) : Except Unit BBox3D).toOption
  | _, _ => Option.none

/-- The fixed priority list of name-bearing keys in `_element_name`. -/
def nameKeys : List String :=
  ["name", "element_name", "displayName", "Display Name", "Element Name",
   "Type Name", "Family and Type"]

/-- The lowercase property names accepted by the property-record scan
of `_element_name`. -/
def propNameSet : List String :=
  ["name", "element name", "display name", "type name", "family and type"]

/-- First truthy value among the name-bearing keys (`str`-ified). -/
def firstNameKey (elem : Elem) : List String → Option String
  | [] => Option.none
  | k :: rest =>
      let v := pyDictGet elem k
      if truthy v then some (pyStr v) else firstNameKey elem rest

/-- The scan over `properties.results`: `prop.get` raises on a
non-dict entry (`.error ()`); a matching property with a truthy value
returns it, otherwise the scan continues. -/
def propsSearch : List PyVal → Except Unit (Option String)
  | [] => .ok Option.none
  | p :: rest =>
      match p with
      | .dict kvs =>
          let n := (pyStr (pyDictGetD kvs "name" (.str ""))).toLower
          if n ∈ propNameSet then
            let val := pyDictGet kvs "value"
            if truthy val then .ok (some (pyStr val)) else propsSearch rest
          else propsSearch rest
      | _ => .error ()

/-- The final fallback of `_element_name`:
`str(elem.get("externalId") or elem.get("id") or "Unknown")`. -/
def fallbackName (elem : Elem) : String :=
  pyStr (pyOr (pyDictGet elem "externalId") (pyOr (pyDictGet elem "id") (.str "Unknown")))

/-- The label resolver `_element_name`. -/
def _element_name (elem : Elem) : Except Unit String :=
  match firstNameKey elem nameKeys with
  | some s => .ok s
  | Option.none =>
      match maybeGet (.dict elem) ["properties", "results"] with
      | .list ps =>
          match propsSearch ps with
          | .error u => .error u
          | .ok (some s) => .ok s
          | .ok Option.none => .ok (fallbackName elem)
      | _ => .ok (fallbackName elem)

/-- The argument fed to strategy 1 by `compute_bbox_from_element`:
`element.get("bbox") or element.get("BBox") or
element.get("boundingBox") or element.get("BoundingBox") or {}`. -/
def directCandidates (element : Elem) : PyVal :=
  pyOr (pyDictGet element "bbox")
    (pyOr (pyDictGet element "BBox")
      (pyOr (pyDictGet element "boundingBox")
        (pyOr (pyDictGet element "BoundingBox") (.dict []))))

/-- `compute_bbox_from_element`: resolve the name, then try the four
strategies in their fixed order, stopping at the first success.
(A `BBox3D` instance is always truthy, so `if bb:` is `bb is not
None`.) -/
def compute_bbox_from_element (element : Elem) : Except Unit (Option BBox3D) :=
  match _element_name element with
  | .error u => .error u
  | .ok name =>
      match _bbox_from_direct_dict (directCandidates element) name with
      | some bb => .ok (some bb)
      | Option.none =>
          match _bbox_from_mesh_vertices element name with
          | some bb => .ok (some bb)
          | Option.none =>
              match _bbox_from_boundary_height element name with
              | .error u => .error u
              | .ok (some bb) => .ok (some bb)
              | .ok Option.none => .ok (_bbox_from_location_size element name)

/-- The tri-state classification (`ContainmentType` holds three
distinct string constants in the source; the strings are distinct, so
an enumeration is a faithful model). -/
inductive ContainmentType where
  | FullyContained
  | PartiallyContained
  | Outside
deriving DecidableEq

/-- `classify_containment_aabb` (the Python default for `eps` is
`1e-4`; the model always passes it explicitly). -/
def classify_containment_aabb (container elem : BBox3D) (eps : ℚ) : ContainmentType :=
  if (elem.minx ≥ container.minx - eps ∧ elem.maxx ≤ container.maxx + eps)
     ∧ (elem.miny ≥ container.miny - eps ∧ elem.maxy ≤ container.maxy + eps)
     ∧ (elem.minz ≥ container.minz - eps ∧ elem.maxz ≤ container.maxz + eps) then
    ContainmentType.FullyContained
  else if (elem.maxx ≥ container.minx - eps ∧ elem.minx ≤ container.maxx + eps)
          ∧ (elem.maxy ≥ container.miny - eps ∧ elem.miny ≤ container.maxy + eps)
          ∧ (elem.maxz ≥ container.minz - eps ∧ elem.minz ≤ container.maxz + eps) then
    ContainmentType.PartiallyContained
  else ContainmentType.Outside

/-- A record of `results["contained"]` (the `bb.to_dict()` snapshot is
modelled by the box itself, whose `volume` is derivable). -/
structure ContainedRec where
  id : PyVal
  externalId : PyVal
  name : String
  category : PyVal
  containment_type : ContainmentType
  bbox : BBox3D
deriving DecidableEq

/-- A record of `results["skipped"]`. -/
structure SkippedRec where
  id : PyVal
  name : String
  reason : String
deriving DecidableEq

/-- The mutable parts of `results` while the candidate loop runs. -/
structure AState where
  contained : List ContainedRec
  skipped : List SkippedRec
  fully_contained : Nat
  partially_contained : Nat
  grouped : List (PyVal × List ContainedRec)
deriving DecidableEq

/-- `results["grouped_by_category"].setdefault(cat, []).append(rec)`:
append to the existing group for `cat`, or add a new group at the end. -/
def groupAppend (gs : List (PyVal × List ContainedRec)) (cat : PyVal) (x : ContainedRec) :
    List (PyVal × List ContainedRec) :=
  match gs with
  | [] => [(cat, [x])]
  | (k, l) :: rest =>
      if k = cat then (k, l ++ [x]) :: rest else (k, l) :: groupAppend rest cat x

/-- `elem.get("id") or elem.get("externalId")`, the identity stored in
both contained and skipped records. -/
def idOf (e : Elem) : PyVal := pyOr (pyDictGet e "id") (pyDictGet e "externalId")

/-- `elem.get("category") or elem.get("Category") or "Uncategorized"`. -/
def catOf (e : Elem) : PyVal :=
  pyOr (pyDictGet e "category") (pyOr (pyDictGet e "Category") (.str "Uncategorized"))

/-- One iteration of the candidate loop of
`analyze_containment_by_bboxes`. -/
def stepCand (cbb : BBox3D) (eps : ℚ) (st : AState) (e : Elem) : Except Unit AState :=
  match compute_bbox_from_element e with
  | .error u => .error u
  | .ok Option.none =>
      match _element_name e with
      | .error u => .error u
      | .ok n =>
          .ok { st with skipped := st.skipped ++ [⟨idOf e, n, "No geometry/bbox found"⟩] }
  | .ok (some bb) =>
      let ct := classify_containment_aabb cbb bb eps
      if ct = ContainmentType.Outside then .ok st
      else
        match _element_name e with
        | .error u => .error u
        | .ok n =>
            let x : ContainedRec := ⟨idOf e, pyDictGet e "externalId", n, catOf e, ct, bb⟩
            .ok { st with
                  contained := st.contained ++ [x],
                  fully_contained := st.fully_contained +
                    (if ct = ContainmentType.FullyContained then 1 else 0),
                  partially_contained := st.partially_contained +
                    (if ct = ContainmentType.PartiallyContained then 1 else 0),
                  grouped := groupAppend st.grouped (catOf e) x }

/-- The candidate loop, in input order. -/
def analyzeLoop (cbb : BBox3D) (eps : ℚ) : AState → List Elem → Except Unit AState
  | st, [] => .ok st
  | st, e :: rest =>
      match stepCand cbb eps st e with
      | .error u => .error u
      | .ok st1 => analyzeLoop cbb eps st1 rest

/-- The successful result shape of `analyze_containment_by_bboxes`. -/
structure AnalysisOk where
  container_name : String
  container_bbox : BBox3D
  contained : List ContainedRec
  skipped : List SkippedRec
  total_candidates : Nat
  fully_contained : Nat
  partially_contained : Nat
  grouped_by_category : List (PyVal × List ContainedRec)
deriving DecidableEq

/-- The overall result: the error dict (which carries only the fixed
message and the raw container element) or the filled results dict. -/
inductive AnalysisResult where
  | err (error : String) (container_element : Elem)
  | ok (r : AnalysisOk)
deriving DecidableEq

/-- `analyze_containment_by_bboxes` (the summary's `total_candidates`
is set to the input length before the loop and never touched again). -/
def analyze_containment_by_bboxes (container_element : Elem)
    (candidate_elements : List Elem) (eps : ℚ) : Except Unit AnalysisResult :=
  match compute_bbox_from_element container_element with
  | .error u => .error u
  | .ok Option.none =>
      .ok (.err "No bounding box could be derived for container element" container_element)
  | .ok (some cbb) =>
      match analyzeLoop cbb eps ⟨[], [], 0, 0, []⟩ candidate_elements with
      | .error u => .error u
      | .ok st =>
          .ok (.ok ⟨cbb.name, cbb, st.contained, st.skipped, candidate_elements.length,
                    st.fully_contained, st.partially_contained, st.grouped⟩)

/-- Spec §4.3 per-axis "inside" test, on all three axes: the
candidate's axis range lies within the container's axis range expanded
outward by `eps` on both ends. -/
def InsideAll (c e : BBox3D) (eps : ℚ) : Prop :=
  (c.minx - eps ≤ e.minx ∧ e.maxx ≤ c.maxx + eps)
  ∧ (c.miny - eps ≤ e.miny ∧ e.maxy ≤ c.maxy + eps)
  ∧ (c.minz - eps ≤ e.minz ∧ e.maxz ≤ c.maxz + eps)

/-- Spec §4.3 per-axis "overlap" test, on all three axes: the two axis
ranges intersect once the container's range is expanded outward by
`eps` on both ends. -/
def OverlapAll (c e : BBox3D) (eps : ℚ) : Prop :=
  (c.minx - eps ≤ e.maxx ∧ e.minx ≤ c.maxx + eps)
  ∧ (c.miny - eps ≤ e.maxy ∧ e.miny ≤ c.maxy + eps)
  ∧ (c.minz - eps ≤ e.maxz ∧ e.minz ≤ c.maxz + eps)

/-- C1: `Classify` returns `FullyContained` exactly when the per-axis
inside test holds on all three axes; otherwise `PartiallyContained`
exactly when the per-axis overlap test holds on all three axes;
otherwise `Outside`.  Full containment is decided strictly before
partial overlap. -/
theorem classify_matches_spec (c e : BBox3D) (eps : ℚ) :
    (classify_containment_aabb c e eps = ContainmentType.FullyContained ↔ InsideAll c e eps)
    ∧ (classify_containment_aabb c e eps = ContainmentType.PartiallyContained ↔
        (¬ InsideAll c e eps ∧ OverlapAll c e eps))
    ∧ (classify_containment_aabb c e eps = ContainmentType.Outside ↔
        (¬ InsideAll c e eps ∧ ¬ OverlapAll c e eps)) := by
  have hIns : ((e.minx ≥ c.minx - eps ∧ e.maxx ≤ c.maxx + eps)
      ∧ (e.miny ≥ c.miny - eps ∧ e.maxy ≤ c.maxy + eps)
      ∧ (e.minz ≥ c.minz - eps ∧ e.maxz ≤ c.maxz + eps)) ↔ InsideAll c e eps := by
    unfold InsideAll; rfl
  have hOv : ((e.maxx ≥ c.minx - eps ∧ e.minx ≤ c.maxx + eps)
      ∧ (e.maxy ≥ c.miny - eps ∧ e.miny ≤ c.maxy + eps)
      ∧ (e.maxz ≥ c.minz - eps ∧ e.minz ≤ c.maxz + eps)) ↔ OverlapAll c e eps := by
    unfold OverlapAll; rfl
  unfold classify_containment_aabb
  by_cases h1 : InsideAll c e eps
  · rw [if_pos (hIns.mpr h1)]
    simp [h1]
  · rw [if_neg (fun hh => h1 (hIns.mp hh))]
    by_cases h2 : OverlapAll c e eps
    · rw [if_pos (hOv.mpr h2)]
      simp [h1, h2]
    · rw [if_neg (fun hh => h2 (hOv.mp hh))]
      simp [h1, h2]

/-- C8: a box constructed from six coordinates, in any input order, has
`min ≤ max` on each axis; its volume is nonnegative and vanishes
whenever some axis extent is zero. -/
theorem bbox_normalization_volume (x1 y1 z1 x2 y2 z2 : ℚ) (name : String) :
    ∀ b : BBox3D, b = mkBBox3D x1 y1 z1 x2 y2 z2 name →
      (b.minx ≤ b.maxx ∧ b.miny ≤ b.maxy ∧ b.minz ≤ b.maxz)
      ∧ 0 ≤ b.volume
      ∧ ((b.maxx - b.minx = 0 ∨ b.maxy - b.miny = 0 ∨ b.maxz - b.minz = 0) → b.volume = 0) := by
  intro b hb
  have hord : b.minx ≤ b.maxx ∧ b.miny ≤ b.maxy ∧ b.minz ≤ b.maxz := by
    subst hb
    simp only [mkBBox3D]
    split_ifs <;> refine ⟨?_, ?_, ?_⟩ <;> dsimp <;> linarith
  refine ⟨hord, ?_, ?_⟩
  · unfold BBox3D.volume
    have h1 : (0 : ℚ) ≤ max 0 (b.maxx - b.minx) := le_max_left _ _
    have h2 : (0 : ℚ) ≤ max 0 (b.maxy - b.miny) := le_max_left _ _
    have h3 : (0 : ℚ) ≤ max 0 (b.maxz - b.minz) := le_max_left _ _
    exact mul_nonneg (mul_nonneg h1 h2) h3
  · rintro (h | h | h) <;> unfold BBox3D.volume <;> rw [h] <;> simp

/-- C8 witness: a degenerate box (given with inverted y and z pairs)
is normalized and has volume zero. -/
theorem bbox_normalization_volume_witness :
    ((mkBBox3D 1 5 7 1 2 3 "w").minx ≤ (mkBBox3D 1 5 7 1 2 3 "w").maxx
      ∧ (mkBBox3D 1 5 7 1 2 3 "w").miny ≤ (mkBBox3D 1 5 7 1 2 3 "w").maxy
      ∧ (mkBBox3D 1 5 7 1 2 3 "w").minz ≤ (mkBBox3D 1 5 7 1 2 3 "w").maxz)
    ∧ 0 ≤ (mkBBox3D 1 5 7 1 2 3 "w").volume
    ∧ (mkBBox3D 1 5 7 1 2 3 "w").volume = 0 := by
  have h := bbox_normalization_volume 1 5 7 1 2 3 "w" (mkBBox3D 1 5 7 1 2 3 "w") rfl
  exact ⟨h.1, h.2.1, h.2.2 (Or.inl (by norm_num [mkBBox3D]))⟩

/-- Simultaneous translation of a box by a fixed vector. -/
def translateBox (b : BBox3D) (tx ty tz : ℚ) : BBox3D :=
  ⟨b.minx + tx, b.miny + ty, b.minz + tz, b.maxx + tx, b.maxy + ty, b.maxz + tz, b.name⟩

/-- C9: `Classify` is invariant under simultaneous translation of both
boxes by the same vector, and on every pair exactly one of the three
outcomes holds. -/
theorem classify_translation_invariant_partition (c e : BBox3D) (eps tx ty tz : ℚ) :
    classify_containment_aabb (translateBox c tx ty tz) (translateBox e tx ty tz) eps
      = classify_containment_aabb c e eps
    ∧ ((classify_containment_aabb c e eps = ContainmentType.FullyContained
          ∧ classify_containment_aabb c e eps ≠ ContainmentType.PartiallyContained
          ∧ classify_containment_aabb c e eps ≠ ContainmentType.Outside)
        ∨ (classify_containment_aabb c e eps ≠ ContainmentType.FullyContained
          ∧ classify_containment_aabb c e eps = ContainmentType.PartiallyContained
          ∧ classify_containment_aabb c e eps ≠ ContainmentType.Outside)
        ∨ (classify_containment_aabb c e eps ≠ ContainmentType.FullyContained
          ∧ classify_containment_aabb c e eps ≠ ContainmentType.PartiallyContained
          ∧ classify_containment_aabb c e eps = ContainmentType.Outside)) := by
  constructor
  · unfold classify_containment_aabb
    apply if_congr ?_ rfl (if_congr ?_ rfl rfl)
    · dsimp only [translateBox]
      constructor
      · rintro ⟨⟨a1, a2⟩, ⟨b1, b2⟩, d1, d2⟩
        exact ⟨⟨by linarith, by linarith⟩, ⟨by linarith, by linarith⟩, by linarith, by linarith⟩
      · rintro ⟨⟨a1, a2⟩, ⟨b1, b2⟩, d1, d2⟩
        exact ⟨⟨by linarith, by linarith⟩, ⟨by linarith, by linarith⟩, by linarith, by linarith⟩
    · dsimp only [translateBox]
      constructor
      · rintro ⟨⟨a1, a2⟩, ⟨b1, b2⟩, d1, d2⟩
        exact ⟨⟨by linarith, by linarith⟩, ⟨by linarith, by linarith⟩, by linarith, by linarith⟩
      · rintro ⟨⟨a1, a2⟩, ⟨b1, b2⟩, d1, d2⟩
        exact ⟨⟨by linarith, by linarith⟩, ⟨by linarith, by linarith⟩, by linarith, by linarith⟩
  · cases h : classify_containment_aabb c e eps <;> simp

/-- A boundary+height element whose `base_elevation` is a non-numeric
string: the boundary parses, base and height are present (so not
`None`), and the unprotected `float(base)` raises. -/
def boundaryBadBase : Elem :=
  [("room_boundary_2d", .list [.dict [("x", .num 0), ("y", .num 0)],
                               .dict [("x", .num 4), ("y", .num 0)],
                               .dict [("x", .num 0), ("y", .num 3)]]),
   ("base_elevation", .str "abc"), ("height", .num 3)]

/-- C2: refuted on the code — the `float(base)`/`float(height)`
coercions of the boundary+height strategy sit outside every
`try/except`, so a non-numeric base elevation raises a `ValueError`
out of the strategy and out of `compute_bbox_from_element`, instead of
being absorbed into a "none" report as the spec's propagation policy
requires. -/
theorem boundary_height_raises_on_nonnumeric_base :
    _bbox_from_boundary_height boundaryBadBase "E" = .error ()
    ∧ compute_bbox_from_element boundaryBadBase = .error () :=
  ⟨rfl, rfl⟩

/-- The claim's (spec §4.2.2) reading of one mesh vertex: x, y and z
must all parse for the vertex to contribute at all. -/
def parseVertexFull (v : PyVal) : Option (ℚ × ℚ × ℚ) := do
  let x ← vGetFloat v "x" "X"
  let y ← vGetFloat v "y" "Y"
  let z ← vGetFloat v "z" "Z"
  pure (x, y, z)

/-- The box claim C4 predicts: componentwise min/max over exactly the
fully parsed vertices, failing when none parses. -/
def meshBoxClaim (verts : List PyVal) (name : String) : Option BBox3D :=
  let ps := verts.filterMap parseVertexFull
  if ps.isEmpty then Option.none
  else some (mkBBox3D (pyMin (ps.map (fun p => p.1))) (pyMin (ps.map (fun p => p.2.1)))
                      (pyMin (ps.map (fun p => p.2.2)))
                      (pyMax (ps.map (fun p => p.1))) (pyMax (ps.map (fun p => p.2.1)))
                      (pyMax (ps.map (fun p => p.2.2))) name)

/-- Two vertices: the first parses fully, the second has a good x (100)
but an unparsable y, so under the claim it should contribute nothing. -/
def c4MeshVerts : List PyVal :=
  [.dict [("x", .num 0), ("y", .num 0), ("z", .num 0)],
   .dict [("x", .num 100), ("y", .str "bad"), ("z", .num 0)]]

/-- An element carrying `c4MeshVerts` at the mesh geometry path. -/
def c4MeshElem : Elem :=
  [("geometry", .dict [("mesh", .dict [("vertices", .list c4MeshVerts)])])]

/-- C4 counterexample: the code appends the second vertex's x before
its y fails, so the resulting box has maxx = 100, while the claim's
box over exactly the fully parsed vertices has maxx = 0. -/
theorem mesh_vertex_partial_contribution_cex :
    _bbox_from_mesh_vertices c4MeshElem "E" = some ⟨0, 0, 0, 100, 0, 0, "E"⟩
    ∧ meshBoxClaim c4MeshVerts "E" = some ⟨0, 0, 0, 0, 0, 0, "E"⟩
    ∧ _bbox_from_mesh_vertices c4MeshElem "E" ≠ meshBoxClaim c4MeshVerts "E" := by
  have h1 : _bbox_from_mesh_vertices c4MeshElem "E" = some ⟨0, 0, 0, 100, 0, 0, "E"⟩ := rfl
  have h2 : meshBoxClaim c4MeshVerts "E" = some ⟨0, 0, 0, 0, 0, 0, "E"⟩ := rfl
  refine ⟨h1, h2, ?_⟩
  rw [h1, h2]
  intro h
  have h3 := (Option.some_injective _ h)
  have h4 : (100 : ℚ) = 0 := congrArg BBox3D.maxx h3
  norm_num at h4

/-- The x-contribution list of the amended C4: a vertex contributes its
x whenever its x parses (whatever happens to y and z). -/
def meshXs (verts : List PyVal) : List ℚ :=
  verts.filterMap (fun v => vGetFloat v "x" "X")

/-- The y-contribution list: a vertex contributes its y whenever its x
and y both parse. -/
def meshYs (verts : List PyVal) : List ℚ :=
  verts.filterMap (fun v => (vGetFloat v "x" "X").bind fun _ => vGetFloat v "y" "Y")

/-- The z-contribution list: a vertex contributes its z whenever x, y
and z all parse. -/
def meshZs (verts : List PyVal) : List ℚ :=
  verts.filterMap (fun v => (vGetFloat v "x" "X").bind fun _ =>
    (vGetFloat v "y" "Y").bind fun _ => vGetFloat v "z" "Z")

/-- The vertex loop accumulates exactly the three contribution lists. -/
theorem meshStep_foldl (verts : List PyVal) : ∀ xs ys zs : List ℚ,
    verts.foldl meshStep (xs, ys, zs)
      = (xs ++ meshXs verts, ys ++ meshYs verts, zs ++ meshZs verts) := by
  induction verts with
  | nil => intro xs ys zs; simp [meshXs, meshYs, meshZs]
  | cons v rest ih =>
      intro xs ys zs
      simp only [List.foldl_cons]
      cases hx : vGetFloat v "x" "X" with
      | none =>
          simp [meshStep, hx, ih, meshXs, meshYs, meshZs, List.filterMap_cons]
      | some qx =>
          cases hy : vGetFloat v "y" "Y" with
          | none =>
              simp [meshStep, hx, hy, ih, meshXs, meshYs, meshZs, List.filterMap_cons]
          | some qy =>
              cases hz : vGetFloat v "z" "Z" with
              | none =>
                  simp [meshStep, hx, hy, hz, ih, meshXs, meshYs, meshZs, List.filterMap_cons]
              | some qz =>
                  simp [meshStep, hx, hy, hz, ih, meshXs, meshYs, meshZs, List.filterMap_cons]

/-- C4 amended: on a nonempty vertex list the mesh strategy builds the
three prefix-wise contribution lists (x whenever x parses, y whenever
x and y parse, z whenever all three parse), fails exactly when one of
them is empty, and otherwise returns their componentwise min/max. -/
theorem mesh_envelope_amended (elem : Elem) (name : String) (verts : List PyVal)
    (hv : meshVertsOf elem = .list verts) (hne : verts ≠ []) :
    _bbox_from_mesh_vertices elem name
      = if meshXs verts = [] ∨ meshYs verts = [] ∨ meshZs verts = [] then Option.none
        else some (mkBBox3D (pyMin (meshXs verts)) (pyMin (meshYs verts)) (pyMin (meshZs verts))
                            (pyMax (meshXs verts)) (pyMax (meshYs verts)) (pyMax (meshZs verts))
                            name) := by
  unfold _bbox_from_mesh_vertices
  rw [hv]
  dsimp only
  have hfold := meshStep_foldl verts [] [] []
  simp only [List.nil_append] at hfold
  rw [hfold]
  have hemp : verts.isEmpty = false := by
    cases verts with
    | nil => exact absurd rfl hne
    | cons a l => rfl
  rw [hemp]
  simp only [Bool.false_eq_true, if_false]
  by_cases h : meshXs verts = [] ∨ meshYs verts = [] ∨ meshZs verts = []
  · rw [if_pos h]
    have hb : ((meshXs verts).isEmpty || (meshYs verts).isEmpty || (meshZs verts).isEmpty) = true := by
      rcases h with h | h | h <;> simp [h]
    simp [hb]
  · rw [if_neg h]
    push_neg at h
    have hb : ((meshXs verts).isEmpty || (meshYs verts).isEmpty || (meshZs verts).isEmpty) = false := by
      simp only [Bool.or_eq_false_iff, List.isEmpty_eq_false]
      exact ⟨⟨h.1, h.2.1⟩, h.2.2⟩
    simp [hb]

/-- C4 amended, witnessed on the counterexample element. -/
theorem mesh_envelope_amended_witness :
    _bbox_from_mesh_vertices c4MeshElem "E"
      = if meshXs c4MeshVerts = [] ∨ meshYs c4MeshVerts = [] ∨ meshZs c4MeshVerts = []
        then Option.none
        else some (mkBBox3D (pyMin (meshXs c4MeshVerts)) (pyMin (meshYs c4MeshVerts))
                            (pyMin (meshZs c4MeshVerts))
                            (pyMax (meshXs c4MeshVerts)) (pyMax (meshYs c4MeshVerts))
                            (pyMax (meshZs c4MeshVerts)) "E") :=
  mesh_envelope_amended c4MeshElem "E" c4MeshVerts rfl (by simp [c4MeshVerts])

/-- A direct box sub-record exposing its coordinates only under the
capitalized spellings X/Y/Z (outer `min`/`max` keys present). -/
def capsOnlyBoxDict : PyVal :=
  .dict [("min", .dict [("X", .num 0), ("Y", .num 0), ("Z", .num 0)]),
         ("max", .dict [("X", .num 1), ("Y", .num 1), ("Z", .num 1)])]

/-- C5 counterexample: the direct-box strategy fails on a sub-record
whose min/max coordinates are exposed only as X/Y/Z — the inner
coordinate keys are read with the lowercase spelling only, so
`minp.get("x")` yields `None` and the `float` raises into the
`except`. -/
theorem direct_dict_caps_only_fails_cex :
    _bbox_from_direct_dict capsOnlyBoxDict "E" = Option.none := rfl

/-- The only coordinate reading the direct-box strategy performs on a
min/max sub-record: the all-lowercase key, coerced to float. -/
def lowCoord (kvs : List (String × PyVal)) (k : String) : Option ℚ :=
  pyFloat (pyDictGet kvs k)

/-- C5 amended: the outer bbox and min/Min, max/Max keys are
case-variant, but inside the resolved min/max sub-records the
coordinates are read under the lowercase x/y/z spelling only; when both
resolved sub-records are dicts, the strategy returns exactly the box of
the six lowercase readings, failing if any of them is missing or
non-numeric, and never consults a capitalized X/Y/Z key. -/
theorem direct_dict_amended (kvs mkvs Mkvs : List (String × PyVal)) (name : String)
    (hmin : pyOr (pyDictGet kvs "min") (pyOr (pyDictGet kvs "Min") (.dict [])) = .dict mkvs)
    (hmax : pyOr (pyDictGet kvs "max") (pyOr (pyDictGet kvs "Max") (.dict [])) = .dict Mkvs) :
    _bbox_from_direct_dict (.dict kvs) name
      = (do
          let a ← lowCoord mkvs "x"
          let b ← lowCoord mkvs "y"
          let c ← lowCoord mkvs "z"
          let d ← lowCoord Mkvs "x"
          let e ← lowCoord Mkvs "y"
          let f ← lowCoord Mkvs "z"
          pure (mkBBox3D a b c d e f name)) := by
  unfold _bbox_from_direct_dict
  dsimp only
  rw [hmin, hmax]
  simp only [pyGet, lowCoord, floatE, Bind.bind, Except.bind, Option.bind, Except.toOption]
  cases pyFloat (pyDictGet mkvs "x") <;>
    cases pyFloat (pyDictGet mkvs "y") <;>
      cases pyFloat (pyDictGet mkvs "z") <;>
        cases pyFloat (pyDictGet Mkvs "x") <;>
          cases pyFloat (pyDictGet Mkvs "y") <;>
            cases pyFloat (pyDictGet Mkvs "z") <;> rfl

/-- A direct box sub-record with lowercase coordinates for the C5
amended witness. -/
def lowerBoxKvs : List (String × PyVal) :=
  [("min", .dict [("x", .num 2), ("y", .num 3), ("z", .num 4)]),
   ("max", .dict [("x", .num 7), ("y", .num 8), ("z", .num 9)])]

/-- C5 amended, witnessed on a lowercase direct box record. -/
theorem direct_dict_amended_witness :
    _bbox_from_direct_dict (.dict lowerBoxKvs) "E"
      = (do
          let a ← lowCoord [("x", .num 2), ("y", .num 3), ("z", .num 4)] "x"
          let b ← lowCoord [("x", .num 2), ("y", .num 3), ("z", .num 4)] "y"
          let c ← lowCoord [("x", .num 2), ("y", .num 3), ("z", .num 4)] "z"
          let d ← lowCoord [("x", .num 7), ("y", .num 8), ("z", .num 9)] "x"
          let e ← lowCoord [("x", .num 7), ("y", .num 8), ("z", .num 9)] "y"
          let f ← lowCoord [("x", .num 7), ("y", .num 8), ("z", .num 9)] "z"
          pure (mkBBox3D a b c d e f "E")) :=
  direct_dict_amended lowerBoxKvs
    [("x", .num 2), ("y", .num 3), ("z", .num 4)]
    [("x", .num 7), ("y", .num 8), ("z", .num 9)] "E" rfl rfl

/-- An element whose structured `size` record is empty: under the claim
(size must expose x/y, only z defaulting) derivation should fail. -/
def emptySizeElem : Elem :=
  [("location", .dict [("x", .num 5), ("y", .num 5)]), ("size", .dict [])]

/-- C6 counterexample: with `location` numeric in x/y and an empty
`size` record, the code does not fail — every size component (x and y
included, not only z) silently defaults to 0, producing the degenerate
point box at the center. -/
theorem location_size_empty_size_cex :
    _bbox_from_location_size emptySizeElem "E" = some (mkBBox3D 5 5 0 5 5 0 "E")
    ∧ _bbox_from_location_size emptySizeElem "E" ≠ Option.none := by
  have h1 : _bbox_from_location_size emptySizeElem "E" = some (mkBBox3D 5 5 0 5 5 0 "E") := rfl
  exact ⟨h1, fun h => Option.noConfusion (h1.symm.trans h)⟩

/-- A required center coordinate: the case-variant value must be
present and numeric. -/
def centerCoord (lkvs : List (String × PyVal)) (k K : String) : Option ℚ :=
  pyFloat (pyDictGetD lkvs k (pyDictGet lkvs K))

/-- The center z coordinate, defaulting to 0 when both spellings are
absent. -/
def centerCoordZ (lkvs : List (String × PyVal)) : Option ℚ :=
  pyFloat (pyDictGetD lkvs "z" (pyDictGetD lkvs "Z" (.num 0)))

/-- A size component of the amended C6: case-variant, defaulting to 0
when absent — for x and y too, not only z — and taken through the
absolute value. -/
def sizeCoord (skvs : List (String × PyVal)) (k K : String) : Option ℚ :=
  (pyFloat (pyDictGetD skvs k (pyDictGetD skvs K (.num 0)))).map (fun q => |q|)

/-- C6 amended: with structured center and size records the strategy
returns `[center - size/2, center + size/2]` componentwise where the
center's x and y are required, the center's z defaults to 0, and every
size component (x, y and z alike) defaults to 0 when absent and is
made non-negative by absolute value; it fails exactly when a required
or present coordinate fails numeric coercion (and, outside this
hypothesis, when either record is absent or not structured). -/
theorem location_size_amended (elem : Elem) (name : String)
    (lkvs skvs : List (String × PyVal))
    (hl : pyDictGet elem "location" = .dict lkvs)
    (hs : pyDictGet elem "size" = .dict skvs) :
    _bbox_from_location_size elem name
      = (do
          let cx ← centerCoord lkvs "x" "X"
          let cy ← centerCoord lkvs "y" "Y"
          let cz ← centerCoordZ lkvs
          let sx ← sizeCoord skvs "x" "X"
          let sy ← sizeCoord skvs "y" "Y"
          let sz ← sizeCoord skvs "z" "Z"
          pure (mkBBox3D (cx - sx * (1/2)) (cy - sy * (1/2)) (cz - sz * (1/2))
                         (cx + sx * (1/2)) (cy + sy * (1/2)) (cz + sz * (1/2)) name)) := by
  unfold _bbox_from_location_size
  rw [hl, hs]
  dsimp only
  simp only [centerCoord, centerCoordZ, sizeCoord, floatE, Bind.bind, Except.bind,
    Option.bind, Except.toOption, Option.map]
  cases pyFloat (pyDictGetD lkvs "x" (pyDictGet lkvs "X")) <;>
    cases pyFloat (pyDictGetD lkvs "y" (pyDictGet lkvs "Y")) <;>
      cases pyFloat (pyDictGetD lkvs "z" (pyDictGetD lkvs "Z" (.num 0))) <;>
        cases pyFloat (pyDictGetD skvs "x" (pyDictGetD skvs "X" (.num 0))) <;>
          cases pyFloat (pyDictGetD skvs "y" (pyDictGetD skvs "Y" (.num 0))) <;>
            cases pyFloat (pyDictGetD skvs "z" (pyDictGetD skvs "Z" (.num 0))) <;> rfl

/-- The spec's concrete center+size element. -/
def centerSizeElem : Elem :=
  [("location", .dict [("x", .num 5), ("y", .num 5), ("z", .num 0)]),
   ("size", .dict [("x", .num 2), ("y", .num 2), ("z", .num 2)])]

/-- C6 amended, witnessed on the spec's concrete scenario:
location (5,5,0) with size (2,2,2) derives to the box
(4,4,-1)-(6,6,1). -/
theorem location_size_amended_witness :
    _bbox_from_location_size centerSizeElem "E" = some (mkBBox3D 4 4 (-1) 6 6 1 "E") := by
  have h := location_size_amended centerSizeElem "E"
    [("x", .num 5), ("y", .num 5), ("z", .num 0)]
    [("x", .num 2), ("y", .num 2), ("z", .num 2)] rfl rfl
  rw [h]
  rfl

/-- The skipped-record a candidate contributes: `some` exactly when its
derivation returns no box without raising. -/
def skipOf (e : Elem) : Option SkippedRec :=
  match compute_bbox_from_element e, _element_name e with
  | .ok Option.none, .ok n => some ⟨idOf e, n, "No geometry/bbox found"⟩
  | _, _ => Option.none

/-- The contained-record a candidate contributes: `some` exactly when
its derivation yields a box that does not classify `Outside`. -/
def containedOf (cbb : BBox3D) (eps : ℚ) (e : Elem) : Option ContainedRec :=
  match compute_bbox_from_element e, _element_name e with
  | .ok (some bb), .ok n =>
      let ct := classify_containment_aabb cbb bb eps
      if ct = ContainmentType.Outside then Option.none
      else some ⟨idOf e, pyDictGet e "externalId", n, catOf e, ct, bb⟩
  | _, _ => Option.none

/-- Name resolution is the first step of `compute_bbox_from_element`,
so a non-raising derivation implies a non-raising name. -/
theorem element_name_ok_of_compute (e : Elem) (v : Option BBox3D)
    (h : compute_bbox_from_element e = .ok v) : ∃ n, _element_name e = .ok n := by
  unfold compute_bbox_from_element at h
  cases hn : _element_name e with
  | error u => rw [hn] at h; exact absurd h (by simp)
  | ok n => exact ⟨n, rfl⟩

/-- What one candidate-loop iteration does to the state, in terms of
the candidate's `containedOf`/`skipOf` contributions. -/
theorem stepCand_ok (cbb : BBox3D) (eps : ℚ) (st : AState) (e : Elem) (st' : AState)
    (h : stepCand cbb eps st e = .ok st') :
    st'.contained = st.contained ++ (containedOf cbb eps e).toList
    ∧ st'.skipped = st.skipped ++ (skipOf e).toList
    ∧ st'.fully_contained = st.fully_contained +
        ((containedOf cbb eps e).toList.filter
          (fun x => x.containment_type = ContainmentType.FullyContained)).length
    ∧ st'.partially_contained = st.partially_contained +
        ((containedOf cbb eps e).toList.filter
          (fun x => x.containment_type = ContainmentType.PartiallyContained)).length
    ∧ st'.grouped = (match containedOf cbb eps e with
        | some x => groupAppend st.grouped x.category x
        | Option.none => st.grouped) := by
  unfold stepCand at h
  cases hc : compute_bbox_from_element e with
  | error u => rw [hc] at h; exact absurd h (by simp)
  | ok obb =>
      obtain ⟨n, hn⟩ := element_name_ok_of_compute e obb hc
      rw [hc] at h
      cases obb with
      | none =>
          rw [hn] at h
          dsimp only at h
          cases h
          simp [skipOf, containedOf, hc, hn]
      | some bb =>
          dsimp only at h
          by_cases hct : classify_containment_aabb cbb bb eps = ContainmentType.Outside
          · rw [if_pos hct] at h
            cases h
            simp [skipOf, containedOf, hc, hn, hct]
          · rw [if_neg hct] at h
            rw [hn] at h
            dsimp only at h
            cases h
            simp only [skipOf, containedOf, hc, hn]
            rw [if_neg hct]
            refine ⟨rfl, by simp, ?_, ?_, rfl⟩
            · by_cases hf : classify_containment_aabb cbb bb eps
                  = ContainmentType.FullyContained <;> simp [hf, List.filter]
            · by_cases hf : classify_containment_aabb cbb bb eps
                  = ContainmentType.PartiallyContained <;> simp [hf, List.filter]

/-- The candidate loop appends, in input order, exactly the
`containedOf` and `skipOf` contributions of the candidates. -/
theorem analyzeLoop_lists (cbb : BBox3D) (eps : ℚ) :
    ∀ (cs : List Elem) (st st' : AState),
      analyzeLoop cbb eps st cs = .ok st' →
      st'.contained = st.contained ++ cs.filterMap (containedOf cbb eps)
      ∧ st'.skipped = st.skipped ++ cs.filterMap skipOf
  | [], st, st', h => by
      unfold analyzeLoop at h
      cases h
      simp
  | e :: rest, st, st', h => by
      unfold analyzeLoop at h
      cases hs : stepCand cbb eps st e with
      | error u => rw [hs] at h; exact absurd h (by simp)
      | ok st1 =>
          rw [hs] at h
          dsimp only at h
          obtain ⟨h1, h2⟩ := analyzeLoop_lists cbb eps rest st1 st' h
          obtain ⟨g1, g2, _, _, _⟩ := stepCand_ok cbb eps st e st1 hs
          constructor
          · rw [h1, g1, List.filterMap_cons]
            cases containedOf cbb eps e <;> simp
          · rw [h2, g2, List.filterMap_cons]
            cases skipOf e <;> simp

/-- C3: `Analyze` returns the error result — carrying the fixed message
and the raw container element, and nothing else — exactly when the
container's derivation (without raising) yields no box; and on every
successful run the skipped sequence consists, in input order, of
exactly one entry with reason "No geometry/bbox found" per candidate
whose derivation yields no box, the remaining candidates still being
processed. -/
theorem analyze_error_iff_and_skipped (c : Elem) (cs : List Elem) (eps : ℚ) :
    (analyze_containment_by_bboxes c cs eps
        = .ok (.err "No bounding box could be derived for container element" c)
      ↔ compute_bbox_from_element c = .ok Option.none)
    ∧ (∀ r : AnalysisOk, analyze_containment_by_bboxes c cs eps = .ok (.ok r) →
        r.skipped = cs.filterMap skipOf) := by
  constructor
  · unfold analyze_containment_by_bboxes
    cases hc : compute_bbox_from_element c with
    | error u => simp
    | ok obb =>
        cases obb with
        | none => simp
        | some cbb =>
            dsimp only
            cases hl : analyzeLoop cbb eps ⟨[], [], 0, 0, []⟩ cs with
            | error u => simp
            | ok st => simp
  · intro r hr
    unfold analyze_containment_by_bboxes at hr
    cases hc : compute_bbox_from_element c with
    | error u => rw [hc] at hr; exact absurd hr (by simp)
    | ok obb =>
        rw [hc] at hr
        cases obb with
        | none => exact absurd hr (by simp)
        | some cbb =>
            dsimp only at hr
            cases hl : analyzeLoop cbb eps ⟨[], [], 0, 0, []⟩ cs with
            | error u => rw [hl] at hr; exact absurd hr (by simp)
            | ok st =>
                rw [hl] at hr
                dsimp only at hr
                cases hr
                have hld := (analyzeLoop_lists cbb eps cs ⟨[], [], 0, 0, []⟩ st hl).2
                simpa using hld

/-- A container with a direct bbox (0,0,0)-(10,10,10) and no name
fields. -/
def wContainer : Elem :=
  [("bbox", .dict [("min", .dict [("x", .num 0), ("y", .num 0), ("z", .num 0)]),
                   ("max", .dict [("x", .num 10), ("y", .num 10), ("z", .num 10)])])]

/-- A candidate carrying no geometry at all, only an id. -/
def wSkipCand : Elem := [("id", .str "k1")]

/-- The result of analyzing `wSkipCand` against `wContainer`. -/
def wAnalysisSkip : AnalysisOk :=
  ⟨"Unknown", ⟨0, 0, 0, 10, 10, 10, "Unknown"⟩, [],
   [⟨.str "k1", "k1", "No geometry/bbox found"⟩], 1, 0, 0, []⟩

/-- C3, witnessed on a concrete run with one underivable candidate. -/
theorem analyze_error_iff_and_skipped_witness :
    wAnalysisSkip.skipped = [wSkipCand].filterMap skipOf :=
  (analyze_error_iff_and_skipped wContainer [wSkipCand] (1/10000)).2 wAnalysisSkip rfl

/-- First-appearance deduplication: the order in which distinct
categories first appear in a list. -/
def dedupFirst : List PyVal → List PyVal
  | [] => []
  | a :: l => a :: (dedupFirst l).filter (fun b => b ≠ a)

/-- Membership is preserved by `dedupFirst`. -/
theorem dedupFirst_mem (c : PyVal) : ∀ l : List PyVal, c ∈ dedupFirst l ↔ c ∈ l
  | [] => by simp [dedupFirst]
  | a :: l => by
      simp [dedupFirst, List.mem_filter, dedupFirst_mem c l]
      tauto

/-- `dedupFirst` has no duplicates. -/
theorem dedupFirst_nodup : ∀ l : List PyVal, (dedupFirst l).Nodup
  | [] => by simp [dedupFirst]
  | a :: l => by
      simp only [dedupFirst, List.nodup_cons]
      constructor
      · intro hmem
        have := (List.mem_filter.mp hmem).2
        simp at this
      · exact (dedupFirst_nodup l).filter _

/-- Appending one element to the scanned list extends `dedupFirst` at
the end exactly when the element is new. -/
theorem dedupFirst_append (c : PyVal) : ∀ l : List PyVal,
    dedupFirst (l ++ [c]) = if c ∈ l then dedupFirst l else dedupFirst l ++ [c]
  | [] => by simp [dedupFirst]
  | a :: l => by
      simp only [List.cons_append, dedupFirst, List.append_eq]
      rw [dedupFirst_append c l]
      by_cases hcl : c ∈ l
      · rw [if_pos hcl, if_pos (List.mem_cons_of_mem a hcl)]
      · rw [if_neg hcl]
        by_cases hca : c = a
        · subst hca
          rw [if_pos (List.mem_cons_self c l)]
          rw [List.filter_append]
          simp
        · rw [if_neg (by simp [hca, hcl])]
          rw [List.filter_append]
          simp [hca]

/-- `groupAppend` grows the total size of all groups by exactly one. -/
theorem groupAppend_sizes (cat : PyVal) (x : ContainedRec) :
    ∀ gs : List (PyVal × List ContainedRec),
      ((groupAppend gs cat x).map (fun g => g.2.length)).sum
        = (gs.map (fun g => g.2.length)).sum + 1
  | [] => by simp [groupAppend]
  | (k, l) :: rest => by
      unfold groupAppend
      by_cases hk : k = cat
      · rw [if_pos hk]
        simp
        omega
      · rw [if_neg hk]
        simp [groupAppend_sizes cat x rest]
        omega

/-- `groupAppend` keeps every group member's category equal to its
group key when the appended record carries the key it is filed under. -/
theorem groupAppend_mem_cat (cat : PyVal) (x : ContainedRec) (hx : x.category = cat) :
    ∀ gs : List (PyVal × List ContainedRec),
      (∀ g ∈ gs, ∀ y ∈ g.2, y.category = g.1) →
      ∀ g ∈ groupAppend gs cat x, ∀ y ∈ g.2, y.category = g.1
  | [], _ => by
      intro g hg y hy
      simp [groupAppend] at hg
      subst hg
      simp at hy
      subst hy
      exact hx
  | (k, l) :: rest, hall => by
      intro g hg y hy
      unfold groupAppend at hg
      by_cases hk : k = cat
      · rw [if_pos hk] at hg
        rcases List.mem_cons.mp hg with rfl | hg'
        · rcases List.mem_append.mp hy with hy' | hy'
          · exact hall (k, l) (List.mem_cons_self _ _) y hy'
          · simp at hy'
            subst hy'
            rw [hk]
            exact hx
        · exact hall g (List.mem_cons_of_mem _ hg') y hy
      · rw [if_neg hk] at hg
        rcases List.mem_cons.mp hg with rfl | hg'
        · exact hall (k, l) (List.mem_cons_self _ _) y hy
        · exact groupAppend_mem_cat cat x hx rest
            (fun g' hg'' => hall g' (List.mem_cons_of_mem _ hg'')) g hg' y hy

/-- The keys after `groupAppend`: unchanged when the key exists,
appended at the end when it is new. -/
theorem groupAppend_keys (cat : PyVal) (x : ContainedRec) :
    ∀ gs : List (PyVal × List ContainedRec),
      (groupAppend gs cat x).map Prod.fst
        = if cat ∈ gs.map Prod.fst then gs.map Prod.fst else gs.map Prod.fst ++ [cat]
  | [] => by simp [groupAppend]
  | (k, l) :: rest => by
      unfold groupAppend
      by_cases hk : k = cat
      · rw [if_pos hk]
        subst hk
        simp
      · rw [if_neg hk]
        simp only [List.map_cons]
        rw [groupAppend_keys cat x rest]
        by_cases hmem : cat ∈ rest.map Prod.fst
        · rw [if_pos hmem, if_pos (List.mem_cons_of_mem k hmem)]
        · rw [if_neg hmem, if_neg ?_]
          · simp
          · intro hcc
            rcases List.mem_cons.mp hcc with h1 | h1
            · exact hk h1.symm
            · exact hmem h1

/-- Existing group members survive a `groupAppend`. -/
theorem groupAppend_mem_mono (cat : PyVal) (x : ContainedRec) :
    ∀ gs : List (PyVal × List ContainedRec), ∀ g ∈ gs, ∀ y ∈ g.2,
      ∃ g' ∈ groupAppend gs cat x, y ∈ g'.2
  | [], g, hg, y, hy => absurd hg (List.not_mem_nil g)
  | (k, l) :: rest, g, hg, y, hy => by
      unfold groupAppend
      by_cases hk : k = cat
      · rw [if_pos hk]
        rcases List.mem_cons.mp hg with rfl | hg'
        · exact ⟨(k, l ++ [x]), List.mem_cons_self _ _, List.mem_append_left _ hy⟩
        · exact ⟨g, List.mem_cons_of_mem _ hg', hy⟩
      · rw [if_neg hk]
        rcases List.mem_cons.mp hg with rfl | hg'
        · exact ⟨(k, l), List.mem_cons_self _ _, hy⟩
        · obtain ⟨g', hg'', hy'⟩ := groupAppend_mem_mono cat x rest g hg' y hy
          exact ⟨g', List.mem_cons_of_mem _ hg'', hy'⟩

/-- The appended record lands in some group. -/
theorem groupAppend_mem_new (cat : PyVal) (x : ContainedRec) :
    ∀ gs : List (PyVal × List ContainedRec), ∃ g' ∈ groupAppend gs cat x, x ∈ g'.2
  | [] => ⟨(cat, [x]), by simp [groupAppend]⟩
  | (k, l) :: rest => by
      unfold groupAppend
      by_cases hk : k = cat
      · rw [if_pos hk]
        exact ⟨(k, l ++ [x]), List.mem_cons_self _ _, List.mem_append_right _ (by simp)⟩
      · rw [if_neg hk]
        obtain ⟨g', hg', hx'⟩ := groupAppend_mem_new cat x rest
        exact ⟨g', List.mem_cons_of_mem _ hg', hx'⟩

/-- A record only enters the contained sequence with a non-`Outside`
classification. -/
theorem containedOf_ct (cbb : BBox3D) (eps : ℚ) (e : Elem) (x : ContainedRec)
    (h : containedOf cbb eps e = some x) :
    x.containment_type ≠ ContainmentType.Outside := by
  unfold containedOf at h
  cases hc : compute_bbox_from_element e with
  | error u => rw [hc] at h; exact absurd h (by simp)
  | ok obb =>
      rw [hc] at h
      cases obb with
      | none => exact absurd h (by simp)
      | some bb =>
          cases hn : _element_name e with
          | error u => rw [hn] at h; exact absurd h (by simp)
          | ok n =>
              rw [hn] at h
              dsimp only at h
              by_cases hct : classify_containment_aabb cbb bb eps = ContainmentType.Outside
              · rw [if_pos hct] at h
                exact absurd h (by simp)
              · rw [if_neg hct] at h
                cases h
                exact hct

/-- The running invariant of the candidate loop: group sizes match the
two counters, group members carry their group's key, group keys are the
categories in first-appearance order, and every contained record lies
in some group. -/
def GoodState (st : AState) : Prop :=
  ((st.grouped.map (fun g => g.2.length)).sum
      = st.fully_contained + st.partially_contained)
  ∧ (∀ g ∈ st.grouped, ∀ y ∈ g.2, y.category = g.1)
  ∧ (st.grouped.map Prod.fst = dedupFirst (st.contained.map ContainedRec.category))
  ∧ (∀ y ∈ st.contained, ∃ g ∈ st.grouped, y ∈ g.2)

/-- One candidate-loop iteration preserves the invariant. -/
theorem stepCand_good (cbb : BBox3D) (eps : ℚ) (st : AState) (e : Elem) (st' : AState)
    (h : stepCand cbb eps st e = .ok st') (hg : GoodState st) : GoodState st' := by
  obtain ⟨h1, h2, h3, h4, h5⟩ := stepCand_ok cbb eps st e st' h
  cases hco : containedOf cbb eps e with
  | none =>
      rw [hco] at h1 h3 h4 h5
      simp only [Option.toList, List.append_nil, List.filter_nil, List.length_nil,
        Nat.add_zero] at h1 h3 h4
      refine ⟨?_, ?_, ?_, ?_⟩
      · rw [h5, h3, h4]; exact hg.1
      · rw [h5]; exact hg.2.1
      · rw [h5, h1]; exact hg.2.2.1
      · rw [h5, h1]; exact hg.2.2.2
  | some x =>
      rw [hco] at h1 h3 h4 h5
      simp only [Option.toList] at h1 h3 h4
      have hct := containedOf_ct cbb eps e x hco
      refine ⟨?_, ?_, ?_, ?_⟩
      · rw [h5, groupAppend_sizes, h3, h4, hg.1]
        cases hx : x.containment_type with
        | FullyContained => simp [List.filter, hx]; omega
        | PartiallyContained => simp [List.filter, hx]; omega
        | Outside => exact absurd hx hct
      · rw [h5]
        exact groupAppend_mem_cat x.category x rfl st.grouped hg.2.1
      · rw [h5, groupAppend_keys, h1, List.map_append]
        simp only [List.map_cons, List.map_nil]
        rw [dedupFirst_append, hg.2.2.1]
        by_cases hmem : x.category ∈ st.contained.map ContainedRec.category
        · rw [if_pos hmem, if_pos ((dedupFirst_mem _ _).mpr hmem)]
        · rw [if_neg hmem, if_neg (fun hcc => hmem ((dedupFirst_mem _ _).mp hcc))]
      · rw [h5, h1]
        intro y hy
        rcases List.mem_append.mp hy with hy' | hy'
        · obtain ⟨g, hgm, hyg⟩ := hg.2.2.2 y hy'
          exact groupAppend_mem_mono x.category x st.grouped g hgm y hyg
        · simp at hy'
          subst hy'
          exact groupAppend_mem_new y.category y st.grouped

/-- The whole candidate loop preserves the invariant. -/
theorem analyzeLoop_good (cbb : BBox3D) (eps : ℚ) :
    ∀ (cs : List Elem) (st st' : AState),
      analyzeLoop cbb eps st cs = .ok st' → GoodState st → GoodState st'
  | [], st, st', h, hgst => by
      unfold analyzeLoop at h
      cases h
      exact hgst
  | e :: rest, st, st', h, hgst => by
      unfold analyzeLoop at h
      cases hs : stepCand cbb eps st e with
      | error u => rw [hs] at h; exact absurd h (by simp)
      | ok st1 =>
          rw [hs] at h
          dsimp only at h
          exact analyzeLoop_good cbb eps rest st1 st' h (stepCand_good cbb eps st e st1 hs hgst)

/-- In a list of groups with pairwise distinct keys, a key determines
the group. -/
theorem nodup_keys_unique :
    ∀ gs : List (PyVal × List ContainedRec), (gs.map Prod.fst).Nodup →
      ∀ g1 ∈ gs, ∀ g2 ∈ gs, g1.1 = g2.1 → g1 = g2
  | [], _, g1, hg1, _, _, _ => absurd hg1 (List.not_mem_nil g1)
  | g :: rest, hnd, g1, hg1, g2, hg2, hk => by
      simp only [List.map_cons, List.nodup_cons] at hnd
      rcases List.mem_cons.mp hg1 with rfl | h1
      · rcases List.mem_cons.mp hg2 with rfl | h2
        · rfl
        · exfalso
          apply hnd.1
          rw [hk]
          exact List.mem_map_of_mem Prod.fst h2
      · rcases List.mem_cons.mp hg2 with rfl | h2
        · exfalso
          apply hnd.1
          rw [← hk]
          exact List.mem_map_of_mem Prod.fst h1
        · exact nodup_keys_unique rest hnd.2 g1 h1 g2 h2 hk

/-- C7: on every successful analysis the sum of the category-group
sizes equals `fully_contained + partially_contained`, the group keys
are the contained records' categories in order of first appearance,
and every contained record lies in exactly one group. -/
theorem analyze_grouped_partition (c : Elem) (cs : List Elem) (eps : ℚ) (r : AnalysisOk)
    (h : analyze_containment_by_bboxes c cs eps = .ok (.ok r)) :
    ((r.grouped_by_category.map (fun g => g.2.length)).sum
        = r.fully_contained + r.partially_contained)
    ∧ (r.grouped_by_category.map Prod.fst
        = dedupFirst (r.contained.map ContainedRec.category))
    ∧ (∀ x ∈ r.contained, ∃ g, (g ∈ r.grouped_by_category ∧ x ∈ g.2)
        ∧ ∀ g' ∈ r.grouped_by_category, x ∈ g'.2 → g' = g) := by
  unfold analyze_containment_by_bboxes at h
  cases hc : compute_bbox_from_element c with
  | error u => rw [hc] at h; exact absurd h (by simp)
  | ok obb =>
      rw [hc] at h
      cases obb with
      | none => exact absurd h (by simp)
      | some cbb =>
          dsimp only at h
          cases hl : analyzeLoop cbb eps ⟨[], [], 0, 0, []⟩ cs with
          | error u => rw [hl] at h; exact absurd h (by simp)
          | ok st =>
              rw [hl] at h
              dsimp only at h
              cases h
              have hinit : GoodState ⟨[], [], 0, 0, []⟩ := by
                refine ⟨by simp, by simp, by simp [dedupFirst], by simp⟩
              obtain ⟨hs1, hs2, hs3, hs4⟩ :=
                analyzeLoop_good cbb eps cs ⟨[], [], 0, 0, []⟩ st hl hinit
              refine ⟨hs1, hs3, ?_⟩
              intro x hx
              obtain ⟨g, hgmem, hxg⟩ := hs4 x hx
              refine ⟨g, ⟨hgmem, hxg⟩, ?_⟩
              intro g' hg' hxg'
              have hnd : (st.grouped.map Prod.fst).Nodup := by
                rw [hs3]
                exact dedupFirst_nodup _
              have hcat1 : x.category = g.1 := hs2 g hgmem x hxg
              have hcat2 : x.category = g'.1 := hs2 g' hg' x hxg'
              exact nodup_keys_unique st.grouped hnd g' hg' g hgmem (hcat2.symm.trans hcat1)

/-- A fully-contained candidate of category "Equip". -/
def wCandIn : Elem :=
  [("category", .str "Equip"),
   ("bbox", .dict [("min", .dict [("x", .num 1), ("y", .num 1), ("z", .num 1)]),
                   ("max", .dict [("x", .num 2), ("y", .num 2), ("z", .num 2)])])]

/-- The contained record `wCandIn` produces. -/
def wInRec : ContainedRec :=
  ⟨.none, .none, "Unknown", .str "Equip", ContainmentType.FullyContained,
   ⟨1, 1, 1, 2, 2, 2, "Unknown"⟩⟩

/-- The result of analyzing `[wCandIn]` against `wContainer`. -/
def wAnalysisGrp : AnalysisOk :=
  ⟨"Unknown", ⟨0, 0, 0, 10, 10, 10, "Unknown"⟩, [wInRec], [], 1, 1, 0,
   [(.str "Equip", [wInRec])]⟩

/-- C7, witnessed on a concrete one-candidate run. -/
theorem analyze_grouped_partition_witness :
    ((wAnalysisGrp.grouped_by_category.map (fun g => g.2.length)).sum
        = wAnalysisGrp.fully_contained + wAnalysisGrp.partially_contained)
    ∧ (wAnalysisGrp.grouped_by_category.map Prod.fst
        = dedupFirst (wAnalysisGrp.contained.map ContainedRec.category)) := by
  have h := analyze_grouped_partition wContainer [wCandIn] (1/10000) wAnalysisGrp (by rfl)
  exact ⟨h.1, h.2.1⟩

/-- C10: on every successful analysis `total_candidates` is the length
of the input candidate list (counting skipped and `Outside` candidates
too); the contained and skipped sequences are exactly the candidates'
`containedOf`/`skipOf` contributions in input order, no candidate
contributes to both, and a candidate whose derived box classifies
`Outside` contributes to neither. -/
theorem analyze_totals_disjoint (c : Elem) (cs : List Elem) (eps : ℚ)
    (cbb : BBox3D) (r : AnalysisOk)
    (hc : compute_bbox_from_element c = .ok (some cbb))
    (h : analyze_containment_by_bboxes c cs eps = .ok (.ok r)) :
    r.total_candidates = cs.length
    ∧ r.contained = cs.filterMap (containedOf cbb eps)
    ∧ r.skipped = cs.filterMap skipOf
    ∧ (∀ e ∈ cs, containedOf cbb eps e = Option.none ∨ skipOf e = Option.none)
    ∧ (∀ e ∈ cs, ∀ bb, compute_bbox_from_element e = .ok (some bb) →
        classify_containment_aabb cbb bb eps = ContainmentType.Outside →
        containedOf cbb eps e = Option.none ∧ skipOf e = Option.none) := by
  unfold analyze_containment_by_bboxes at h
  rw [hc] at h
  dsimp only at h
  cases hl : analyzeLoop cbb eps ⟨[], [], 0, 0, []⟩ cs with
  | error u => rw [hl] at h; exact absurd h (by simp)
  | ok st =>
      rw [hl] at h
      dsimp only at h
      cases h
      obtain ⟨hcon, hskip⟩ := analyzeLoop_lists cbb eps cs ⟨[], [], 0, 0, []⟩ st hl
      refine ⟨rfl, by simpa using hcon, by simpa using hskip, ?_, ?_⟩
      · intro e _
        cases hce : compute_bbox_from_element e with
        | error u =>
            left
            unfold containedOf
            rw [hce]
        | ok obb =>
            cases obb with
            | none =>
                left
                unfold containedOf
                rw [hce]
            | some bb =>
                right
                unfold skipOf
                rw [hce]
      · intro e _ bb hbb hout
        constructor
        · unfold containedOf
          rw [hbb]
          cases hn : _element_name e with
          | error u => rfl
          | ok n =>
              dsimp only
              rw [if_pos hout]
        · unfold skipOf
          rw [hbb]

/-- A candidate whose box (20..21 on each axis) lies outside the
container. -/
def wCandOut : Elem :=
  [("bbox", .dict [("min", .dict [("x", .num 20), ("y", .num 20), ("z", .num 20)]),
                   ("max", .dict [("x", .num 21), ("y", .num 21), ("z", .num 21)])])]

/-- The result of analyzing one contained, one underivable and one
outside candidate against `wContainer`. -/
def wAnalysisFull : AnalysisOk :=
  ⟨"Unknown", ⟨0, 0, 0, 10, 10, 10, "Unknown"⟩, [wInRec],
   [⟨.str "k1", "k1", "No geometry/bbox found"⟩], 3, 1, 0, [(.str "Equip", [wInRec])]⟩

/-- C10, witnessed on a three-candidate run (contained, skipped,
outside). -/
theorem analyze_totals_disjoint_witness :
    wAnalysisFull.total_candidates = [wCandIn, wSkipCand, wCandOut].length
    ∧ wAnalysisFull.contained
        = [wCandIn, wSkipCand, wCandOut].filterMap
            (containedOf ⟨0, 0, 0, 10, 10, 10, "Unknown"⟩ (1/10000))
    ∧ wAnalysisFull.skipped = [wCandIn, wSkipCand, wCandOut].filterMap skipOf := by
  have h := analyze_totals_disjoint wContainer [wCandIn, wSkipCand, wCandOut] (1/10000)
    ⟨0, 0, 0, 10, 10, 10, "Unknown"⟩ wAnalysisFull (by rfl) (by rfl)
  exact ⟨h.1, h.2.1, h.2.2.1⟩
